import Mathlib

/-!
Verification of the seo-tool website analysis engine.

The development shallowly embeds the two source files:
* the content-analysis module (`analyzeSEO` and its helpers), and
* the security tab (`checkSSL`, `checkSecurityHeaders`).

Conventions of the embedding:
* A parsed HTML document is a flat list of elements in document order;
  each element carries its tag, its attribute list and its text content
  (the text a cheerio `.text()` call would return for it).
* JavaScript values that can be `undefined`/`null` are `Option`;
  a thrown exception at an await point is modelled by an `Option`-valued
  input (`none` = the call threw), since every such throw in the source is
  caught at a fixed syntactic position.
* JavaScript number division is exact rational arithmetic here except for
  the `0 / 0 = NaN` case, which is modelled explicitly where the source can
  reach it; no claim depends on float rounding in the non-degenerate cases.
-/

/-- JavaScript truthiness default for strings: `s || d` (empty string is falsy). -/
def strOr (s d : String) : String := if s = "" then d else s

/-- JavaScript `s.includes(pat)`: `pat` occurs as a contiguous substring of `s`. -/
def containsSub (s pat : String) : Bool := decide (pat.data <:+: s.data)

/-- Splitting at every whitespace character.  The source splits with a
whitespace-run regex; the two agree after the `length > 3` filter because the
run version only differs by extra empty tokens. -/
def splitWsAux : List Char → List Char → List String
  | [], acc => [String.mk acc.reverse]
  | c :: rest, acc =>
      if c.isWhitespace then String.mk acc.reverse :: splitWsAux rest []
      else splitWsAux rest (c :: acc)

def splitWs (s : String) : List String := splitWsAux s.data []

/-- Count of pattern occurrences in a string, one test per start position.
Used for the `/Disallow:/g` match count; that pattern cannot overlap itself,
so per-position counting equals the regex global count. -/
def countOccur (pat : List Char) : List Char → Nat
  | [] => 0
  | c :: rest => (if pat.isPrefixOf (c :: rest) then 1 else 0) + countOccur pat rest

/-! ## HTML document model -/

structure Elem where
  tag : String
  attrs : List (String × String)
  text : String
deriving DecidableEq

abbrev Html : Type := List Elem

/-- Attribute lookup: first binding of the name, `none` when absent
(cheerio `attr` returns `undefined` for a missing attribute). -/
def getAttr (e : Elem) (name : String) : Option String :=
  (e.attrs.find? fun p => p.1 == name).map Prod.snd

/-- `$(el).attr(a) || ''` — missing attribute and empty attribute both
collapse to the empty string. -/
def jsAttrOr (e : Elem) (name : String) : String := (getAttr e name).getD ""

/-- All elements of the document with the given tag, in document order. -/
def selectTag (doc : Html) (t : String) : List Elem :=
  doc.filter fun e => e.tag == t

/-- `$(t).text()`: concatenation of the text of every matching element. -/
def textOfTag (doc : Html) (t : String) : String :=
  String.join ((selectTag doc t).map Elem.text)

/-- The first element matching `tag[attrName="attrVal"]`, if any. -/
def findByAttr (doc : Html) (t attrName attrVal : String) : Option Elem :=
  doc.find? fun e => e.tag == t && getAttr e attrName == some attrVal

/-! ## URL model

The source calls `new URL(url)` on an absolute URL string; the embedding
works with the parsed form directly and renders the string where the source
uses the raw string. -/

structure Url where
  scheme : String
  hostname : String
  path : String

def renderUrl (u : Url) : String := u.scheme ++ "://" ++ u.hostname ++ u.path

/-- `s.toLowerCase()`: character-wise ASCII lowercasing (the source data of
interest is ASCII; JS full-Unicode lowering agrees on it). -/
def lowerStr (s : String) : String := String.mk (s.data.map Char.toLower)

/-! ## Content analysis: getCommonKeywords -/

/-- The text-bearing tags of the keyword selector
`body h1, body h2, ..., body span, body p, body li`. -/
def textTags : List String :=
  ["h1", "h2", "h3", "h4", "h5", "h6", "span", "p", "li"]

/-- `$(selector).text().toLowerCase()` for the keyword selector. -/
def keywordText (doc : Html) : String :=
  lowerStr (String.join ((doc.filter fun e => textTags.contains e.tag).map Elem.text))

/-- `text.split(/\s+/).filter(word => word.length > 3)`. -/
def keywordWords (doc : Html) : List String :=
  (splitWs (keywordText doc)).filter fun w => w.length > 3

/-- `word.replace(/[^a-z]/g, '')`: keep only lowercase ASCII letters. -/
def cleanWord (w : String) : String :=
  String.mk (w.data.filter fun c => decide ('a' ≤ c ∧ c ≤ 'z'))

/-- One step of the `wordCount[word] = (wordCount[word] || 0) + 1` loop on the
insertion-ordered association list that models the JS object.  Cleaned tokens
are never integer-like strings, so JS object key order is insertion order. -/
def bump : List (String × Nat) → String → List (String × Nat)
  | [], w => [(w, 1)]
  | (k, n) :: rest, w =>
      if k = w then (k, n + 1) :: rest else (k, n) :: bump rest w

/-- The `wordCount` object after the `forEach` loop (cleaning included). -/
def wordCounts (ws : List String) : List (String × Nat) :=
  ws.foldl (fun acc w => bump acc (cleanWord w)) []

/-- Stable insertion of one entry into a count-descending list; models one
step of the stable `.sort((a, b) => b[1] - a[1])`. -/
def insertDesc (p : String × Nat) : List (String × Nat) → List (String × Nat)
  | [] => [p]
  | q :: rest => if p.2 < q.2 then q :: insertDesc p rest else p :: q :: rest

/-- Stable sort by descending count, as the ES2019+ stable `Array.sort`. -/
def sortCountDesc (l : List (String × Nat)) : List (String × Nat) :=
  l.foldr insertDesc []

def keywordCounts (doc : Html) : List (String × Nat) :=
  wordCounts (keywordWords doc)

/-- `Object.entries(wordCount).sort(...).slice(0, 10)`. -/
def keywordPairs (doc : Html) : List (String × Nat) :=
  (sortCountDesc (keywordCounts doc)).take 10

/-- `.map(([word]) => word)`. -/
def keywordList (doc : Html) : List String :=
  (keywordPairs doc).map Prod.fst

structure KeywordSummary where
  description : String
  keywords : String
deriving DecidableEq

def getCommonKeywords (doc : Html) : KeywordSummary :=
  { description := "Top 10 most frequent keywords found on the page"
    keywords := strOr (String.intercalate " " (keywordList doc))
      "No significant keywords found" }

/-! ## Content analysis: remaining helpers -/

structure MetaDescription where
  found : Bool
  length : Nat
  content : String
deriving DecidableEq

def getMetaDescription (doc : Html) : MetaDescription :=
  let description :=
    ((findByAttr doc "meta" "name" "description").bind
      fun e => getAttr e "content").getD ""
  { found := description.length > 0
    length := description.length
    content := strOr description "No meta description found" }

structure HeadingSummary where
  count : Nat
  examples : List String
deriving DecidableEq

def getHeadings (doc : Html) (t : String) : HeadingSummary :=
  let headings := (selectTag doc t).map fun e => e.text.trim
  { count := headings.length
    examples := headings.take 5 }

structure ImageInfo where
  src : String
  alt : String
deriving DecidableEq

structure ImageSummary where
  total : Nat
  missingAlt : Nat
  missingAltPercentage : Nat
  examples : List ImageInfo
deriving DecidableEq

def imgRec (e : Elem) : ImageInfo :=
  { src := jsAttrOr e "src", alt := jsAttrOr e "alt" }

def imagesOf (doc : Html) : List ImageInfo :=
  (selectTag doc "img").map imgRec

/-- `images.filter(img => !img.alt)` — the empty string is falsy. -/
def missingAltOf (doc : Html) : List ImageInfo :=
  (imagesOf doc).filter fun img => img.alt == ""

/-- `Math.round((missingAlt / total) * 100) || 0`: for `total = 0` the
division is `NaN`, `Math.round(NaN)` is `NaN`, and `NaN || 0` is `0`;
otherwise round half away from zero on the nonnegative rational. -/
def jsRoundPct (m t : Nat) : Nat :=
  if t = 0 then 0 else (200 * m + t) / (2 * t)

def analyzeImages (doc : Html) : ImageSummary :=
  { total := (imagesOf doc).length
    missingAlt := (missingAltOf doc).length
    missingAltPercentage := jsRoundPct (missingAltOf doc).length (imagesOf doc).length
    examples := (missingAltOf doc).take 2 }

structure LinkSummary where
  total : Nat
  internal : Nat
  external : Nat
  ratio : String
deriving DecidableEq

/-- `(internal / total * 100).toFixed(1)`: `"NaN"` when `total = 0`
(JS `0 / 0`), else the rational rounded to one decimal place. -/
def jsRatioFixed1 (i t : Nat) : String :=
  if t = 0 then "NaN"
  else
    let n := (2000 * i + t) / (2 * t)
    toString (n / 10) ++ "." ++ toString (n % 10)

/-- `href && (href.includes(domain) || href.startsWith('/') || href.startsWith('#'))`. -/
def isInternalHref (domain : String) : Option String → Bool
  | none => false
  | some h =>
      h != "" &&
        (containsSub h domain || h.startsWith "/" || h.startsWith "#")

def analyzeLinks (doc : Html) (u : Url) : LinkSummary :=
  let links := (selectTag doc "a").map fun e => getAttr e "href"
  let internal := (links.filter (isInternalHref u.hostname)).length
  { total := links.length
    internal := internal
    external := links.length - internal
    ratio := jsRatioFixed1 internal links.length ++ "% internal" }

structure TitleData where
  length : Nat
  content : String
deriving DecidableEq

def getTitleData (doc : Html) : TitleData :=
  let title := textOfTag doc "title"
  { length := title.length, content := strOr title "No title found" }

structure CanonicalTag where
  found : Bool
  url : String
deriving DecidableEq

def getCanonicalTag (doc : Html) : CanonicalTag :=
  let canonical :=
    ((findByAttr doc "link" "rel" "canonical").bind
      fun e => getAttr e "href").getD ""
  { found := canonical.length > 0
    url := strOr canonical "No canonical tag found" }

structure NoIndexInfo where
  isNoIndex : Bool
deriving DecidableEq

def checkNoIndex (doc : Html) : NoIndexInfo :=
  let robots :=
    ((findByAttr doc "meta" "name" "robots").bind
      fun e => getAttr e "content").getD ""
  { isNoIndex := containsSub (lowerStr robots) "noindex" }

structure OpenGraphInfo where
  found : Bool
  count : Nat
deriving DecidableEq

def checkOpenGraph (doc : Html) : OpenGraphInfo :=
  let ogTags :=
    (doc.filter fun e =>
      e.tag == "meta" && (jsAttrOr e "property").startsWith "og:").length
  { found := ogTags > 0, count := ogTags }

structure WWWCanon where
  hasWWW : Bool
  recommendation : String
deriving DecidableEq

/-- `url.includes('www.')` on the full URL string. -/
def checkWWWCanonicalization (url : String) : WWWCanon :=
  { hasWWW := containsSub url "www."
    recommendation :=
      "Ensure either www or non-www version redirects to the preferred version" }

structure RobotsTxt where
  robotsExists : Bool
  disallowCount : Option Nat
deriving DecidableEq

/-- `checkRobotsTxt`: the robots.txt fetch is an input
(`none` = the request threw and the local catch fires). -/
def checkRobotsTxt (robotsFetch : Option String) : RobotsTxt :=
  match robotsFetch with
  | none => { robotsExists := false, disallowCount := none }
  | some data =>
      { robotsExists := true
        disallowCount := some (countOccur "Disallow:".data data.data) }

structure SchemaMarkup where
  found : Bool
  count : Nat
deriving DecidableEq

def checkSchema (doc : Html) : SchemaMarkup :=
  let schema :=
    (doc.filter fun e =>
      e.tag == "script" && getAttr e "type" == some "application/ld+json").length
  { found := schema > 0, count := schema }

structure SearchPreview where
  title : String
  url : String
  description : String
  previewText : String
deriving DecidableEq

def generateSearchPreview (doc : Html) (url : String) : SearchPreview :=
  let title := strOr (textOfTag doc "title") "No title"
  let description :=
    strOr (((findByAttr doc "meta" "name" "description").bind
      fun e => getAttr e "content").getD "") "No description"
  { title := title
    url := url
    description := description
    previewText := title ++ " - " ++ description.take 100 ++ "..." }

/-! ## Content analysis: analyzeSEO -/

structure Headings where
  h1 : HeadingSummary
  h2 : HeadingSummary
deriving DecidableEq

structure MetaTags where
  canonical : CanonicalTag
  noindex : NoIndexInfo
  openGraph : OpenGraphInfo
deriving DecidableEq

structure TechnicalSEO where
  wwwCanonicalization : WWWCanon
  robotsTxt : RobotsTxt
  schemaMarkup : SchemaMarkup
deriving DecidableEq

structure SeoReport where
  commonKeywords : KeywordSummary
  metaDescription : MetaDescription
  headings : Headings
  images : ImageSummary
  links : LinkSummary
  title : TitleData
  metaTags : MetaTags
  technicalSEO : TechnicalSEO
  searchPreview : SearchPreview
deriving DecidableEq

/-- The value `analyzeSEO` resolves with: either the SEO object or the
one-field error object `\x7b error: 'Failed to analyze the page' \x7d`. -/
inductive AnalysisResult where
  | report (r : SeoReport)
  | failure (error : String)
deriving DecidableEq

/-- `analyzeSEO`.  `fetchResult` is the primary `axios.get(url)` outcome
(`none` = it threw, which is caught by the one surrounding try/catch);
`robotsFetch` is the robots.txt fetch outcome consumed by `checkRobotsTxt`,
whose own try/catch absorbs its failure. -/
def analyzeSEO (fetchResult : Option Html) (robotsFetch : Option String)
    (u : Url) : AnalysisResult :=
  match fetchResult with
  | none => .failure "Failed to analyze the page"
  | some doc =>
      .report
        { commonKeywords := getCommonKeywords doc
          metaDescription := getMetaDescription doc
          headings := { h1 := getHeadings doc "h1", h2 := getHeadings doc "h2" }
          images := analyzeImages doc
          links := analyzeLinks doc u
          title := getTitleData doc
          metaTags :=
            { canonical := getCanonicalTag doc
              noindex := checkNoIndex doc
              openGraph := checkOpenGraph doc }
          technicalSEO :=
            { wwwCanonicalization := checkWWWCanonicalization (renderUrl u)
              robotsTxt := checkRobotsTxt robotsFetch
              schemaMarkup := checkSchema doc }
          searchPreview := generateSearchPreview doc (renderUrl u) }

/-! ## Security tab: types -/

structure SslEndpoint where
  ipAddress : String
  grade : Option String
deriving DecidableEq

/-- The JSON body returned by the grading API poll; only the fields the
source reads are modelled. -/
structure SslData where
  status : String
  endpoints : List SslEndpoint
deriving DecidableEq

structure SecurityHeaders where
  strictTransportSecurity : Option String
  xFrameOptions : Option String
  xXssProtection : Option String
  contentSecurityPolicy : Option String
  xContentTypeOptions : Option String
deriving DecidableEq

structure AdminUrlVuln where
  url : String
  status : Nat
  accessible : Bool
deriving DecidableEq

structure SensitiveFileVuln where
  file : String
  accessible : Bool
  status : Nat
deriving DecidableEq

structure Vulnerabilities where
  adminUrls : List AdminUrlVuln
  directoryIndexing : Bool
  sensitiveFiles : List SensitiveFileVuln
deriving DecidableEq

/-! ## Security tab: checkSSL -/

/-- `maxAttempts` of the polling loop. -/
def maxAttempts : Nat := 30

/-- The wait before each poll, in seconds (the source waits 10000 ms). -/
def interval : Nat := 10

/-- The polling loop over the remaining poll responses, one per iteration;
`none` models a poll whose fetch threw or whose response was not ok (both
throw in the source and the outer catch returns `null`).  Returns the
resolved value and the number of loop iterations executed, each of which is
preceded by exactly one `interval` wait. -/
def pollLoopAux : List (Option SslData) → Option SslData × Nat
  | [] => (none, 0)
  | r :: rest =>
      match r with
      | none => (none, 1)
      | some data =>
          if data.status = "READY" then (some data, 1)
          else if data.status = "ERROR" then (none, 1)
          else ((pollLoopAux rest).1, (pollLoopAux rest).2 + 1)

/-- `checkSSL`.  `startOk` is false when the start request threw or returned
a non-ok status (either way the source throws into the outer catch and
resolves `null` with no polling); `polls` gives the body of the i-th poll. -/
def checkSSL (startOk : Bool) (polls : Nat → Option SslData) :
    Option SslData × Nat :=
  if startOk then pollLoopAux ((List.range maxAttempts).map polls)
  else (none, 0)

/-! ## Security tab: checkSecurityHeaders -/

def adminPaths : List String :=
  ["/admin", "/administrator", "/wp-admin", "/admin.php", "/login",
   "/dashboard", "/cpanel", "/control", "/manager"]

def sensitiveFilePaths : List String :=
  ["/.env", "/config.php", "/wp-config.php", "/.htaccess", "/robots.txt",
   "/sitemap.xml", "/backup.sql", "/database.sql", "/.git/config",
   "/composer.json", "/package.json"]

/-- `response.headers.get(name) || null`: a missing header is `null` and an
empty header value is also collapsed to `null` by the `||`. -/
def jsOrNull : Option String → Option String
  | none => none
  | some s => if s = "" then none else some s

/-- One admin-path probe: `none` models a thrown fetch (silently skipped);
a returned status is recorded only when it is neither 404 nor 0, with
`accessible` meaning status < 400. -/
def probeAdmin (adminResp : String → Option Nat) (p : String) :
    Option AdminUrlVuln :=
  match adminResp p with
  | none => none
  | some st =>
      if st ≠ 404 ∧ st ≠ 0 then
        some { url := p, status := st, accessible := decide (st < 400) }
      else none

/-- One sensitive-file probe: recorded only when the status is exactly 200. -/
def probeFile (fileResp : String → Option Nat) (f : String) :
    Option SensitiveFileVuln :=
  match fileResp f with
  | none => none
  | some st =>
      if st = 200 then some { file := f, accessible := true, status := st }
      else none

/-- `checkSecurityHeaders`.  Inputs model the outcome of each network call:
`mainResp` is the HEAD request to the root (`none` = it threw; otherwise the
response-header lookup function), `adminResp`/`fileResp` give the status per
probed path (`none` = that fetch threw), and `dirResp` is the body of the
directory-index GET (`none` = it threw).  Every failure is caught where the
source catches it, so the function is total: no error reaches the caller. -/
def checkSecurityHeaders (mainResp : Option (String → Option String))
    (adminResp : String → Option Nat) (dirResp : Option String)
    (fileResp : String → Option Nat) : SecurityHeaders × Vulnerabilities :=
  let headers : SecurityHeaders :=
    match mainResp with
    | none =>
        { strictTransportSecurity := none, xFrameOptions := none
          xXssProtection := none, contentSecurityPolicy := none
          xContentTypeOptions := none }
    | some get =>
        { strictTransportSecurity := jsOrNull (get "strict-transport-security")
          xFrameOptions := jsOrNull (get "x-frame-options")
          xXssProtection := jsOrNull (get "x-xss-protection")
          contentSecurityPolicy := jsOrNull (get "content-security-policy")
          xContentTypeOptions := jsOrNull (get "x-content-type-options") }
  let dirIndexing : Bool :=
    match dirResp with
    | none => false
    | some body =>
        containsSub body "Index of /" || containsSub body "Directory Listing" ||
          containsSub body "<title>Index of"
  (headers,
    { adminUrls := adminPaths.filterMap (probeAdmin adminResp)
      directoryIndexing := dirIndexing
      sensitiveFiles := sensitiveFilePaths.filterMap (probeFile fileResp) })

/-! ## Concrete documents and URLs used in closed statements -/

def docTesting : Html :=
  [{ tag := "p", attrs := [],
     text := "testing testing the testing odd testing testing" }]

def docShort : Html :=
  [{ tag := "p", attrs := [], text := "ab12 ab12 ab12 ab12" }]

def urlEx : Url := { scheme := "https", hostname := "example.com", path := "" }

/-! ## Lemmas about the keyword pipeline -/

/-- Keys produced by the cleaning step contain only lowercase letters. -/
def CleanKey (k : String) : Prop := ∀ c ∈ k.data, 'a' ≤ c ∧ c ≤ 'z'

theorem cleanWord_clean (w : String) : CleanKey (cleanWord w) := by
  intro c hc
  simp only [cleanWord, List.mem_filter, decide_eq_true_eq] at hc
  exact hc.2

theorem mem_bump : ∀ {l : List (String × Nat)} {w : String} {p : String × Nat},
    p ∈ bump l w → p.1 = w ∨ p.1 ∈ l.map Prod.fst := by
  intro l
  induction l with
  | nil =>
      intro w p h
      simp only [bump, List.mem_singleton] at h
      simp [h]
  | cons q rest ih =>
      intro w p h
      obtain ⟨k, n⟩ := q
      simp only [bump] at h
      split at h
      · rename_i hk
        rcases List.mem_cons.1 h with h1 | h1
        · left; rw [h1]; exact hk
        · right
          simp only [List.map_cons, List.mem_cons]
          exact Or.inr (List.mem_map.2 ⟨p, h1, rfl⟩)
      · rcases List.mem_cons.1 h with h1 | h1
        · right; rw [h1]; simp
        · rcases ih h1 with h2 | h2
          · left; exact h2
          · right; simp only [List.map_cons, List.mem_cons]; exact Or.inr h2

theorem foldl_bump_clean :
    ∀ (ws : List String) (acc : List (String × Nat)),
      (∀ p ∈ acc, CleanKey p.1) →
      ∀ p ∈ ws.foldl (fun a w => bump a (cleanWord w)) acc, CleanKey p.1 := by
  intro ws
  induction ws with
  | nil => intro acc h p hp; exact h p hp
  | cons w ws ih =>
      intro acc h p hp
      refine ih (bump acc (cleanWord w)) ?_ p hp
      intro q hq
      rcases mem_bump hq with h1 | h1
      · rw [h1]; exact cleanWord_clean w
      · rcases List.mem_map.1 h1 with ⟨r, hr, hrq⟩
        rw [← hrq]; exact h r hr

theorem wordCounts_clean (ws : List String) :
    ∀ p ∈ wordCounts ws, CleanKey p.1 :=
  foldl_bump_clean ws [] (by intro p hp; exact absurd hp (List.not_mem_nil p))

/-- The descending-count order used by the keyword sort. -/
abbrev countGE (a b : String × Nat) : Prop := b.2 ≤ a.2

theorem mem_insertDesc : ∀ {l : List (String × Nat)} {p x : String × Nat},
    x ∈ insertDesc p l → x = p ∨ x ∈ l := by
  intro l
  induction l with
  | nil =>
      intro p x h
      simp only [insertDesc, List.mem_singleton] at h
      exact Or.inl h
  | cons q rest ih =>
      intro p x h
      simp only [insertDesc] at h
      split at h
      · rcases List.mem_cons.1 h with h1 | h1
        · right; simp [h1]
        · rcases ih h1 with h2 | h2
          · left; exact h2
          · right; exact List.mem_cons_of_mem q h2
      · rcases List.mem_cons.1 h with h1 | h1
        · left; exact h1
        · right; exact h1

theorem insertDesc_pairwise :
    ∀ {l : List (String × Nat)} (p : String × Nat),
      l.Pairwise countGE → (insertDesc p l).Pairwise countGE := by
  intro l
  induction l with
  | nil => intro p _; simp [insertDesc]
  | cons q rest ih =>
      intro p h
      rcases List.pairwise_cons.1 h with ⟨hq, hrest⟩
      simp only [insertDesc]
      split
      · rename_i hlt
        refine List.pairwise_cons.2 ⟨?_, ih p hrest⟩
        intro x hx
        rcases mem_insertDesc hx with h1 | h1
        · rw [h1]; exact Nat.le_of_lt hlt
        · exact hq x h1
      · rename_i hge
        refine List.pairwise_cons.2 ⟨?_, h⟩
        intro x hx
        rcases List.mem_cons.1 hx with h1 | h1
        · rw [h1]; exact Nat.le_of_not_lt hge
        · exact Nat.le_trans (hq x h1) (Nat.le_of_not_lt hge)

theorem sortCountDesc_pairwise (l : List (String × Nat)) :
    (sortCountDesc l).Pairwise countGE := by
  induction l with
  | nil => simp [sortCountDesc]
  | cons q rest ih => exact insertDesc_pairwise q ih

theorem mem_sortCountDesc : ∀ {l : List (String × Nat)} {x : String × Nat},
    x ∈ sortCountDesc l → x ∈ l := by
  intro l
  induction l with
  | nil => intro x h; simp [sortCountDesc] at h
  | cons q rest ih =>
      intro x h
      have h' : x ∈ insertDesc q (sortCountDesc rest) := h
      rcases mem_insertDesc h' with h1 | h1
      · simp [h1]
      · exact List.mem_cons_of_mem q (ih h1)

/-- C3 (amended): every token surfaced by `getCommonKeywords` consists only
of lowercase alphabetic characters; the `length > 3` filter of the source
runs before the non-alphabetic stripping, so output tokens can be shorter
than 4 characters (even empty), but never contain a non-alphabetic
character. -/
theorem getCommonKeywords_tokens_alphabetic :
    ∀ (doc : Html) (w : String), w ∈ keywordList doc →
      ∀ c ∈ w.data, 'a' ≤ c ∧ c ≤ 'z' := by
  intro doc w hw
  rcases List.mem_map.1 hw with ⟨p, hp, rfl⟩
  have hp2 : p ∈ sortCountDesc (keywordCounts doc) :=
    (List.take_sublist 10 _).subset hp
  have hp3 : p ∈ keywordCounts doc := mem_sortCountDesc hp2
  exact wordCounts_clean (keywordWords doc) p hp3

/-- C3 counterexample: the document whose visible text is
`ab12 ab12 ab12 ab12` surfaces the keyword token `ab`, which is not
strictly longer than 3 characters. -/
theorem getCommonKeywords_short_token_counterexample :
    "ab" ∈ keywordList docShort ∧ ¬ ("ab".length > 3) := by
  constructor
  · have h : keywordList docShort = ["ab"] := rfl
    rw [h]; exact List.mem_singleton.2 rfl
  · decide

theorem getCommonKeywords_tokens_alphabetic_witness :
    'a' ≤ 't' ∧ 't' ≤ 'z' :=
  getCommonKeywords_tokens_alphabetic docTesting "testing"
    (by have h : keywordList docTesting = ["testing"] := rfl
        rw [h]; exact List.mem_singleton.2 rfl)
    't' (by decide)

/-- C8: the keyword output never exceeds 10 entries and the retained
(word, frequency) pairs are in non-increasing frequency order; on a document
whose only word longer than 3 characters is `testing` repeated 5 times the
output is exactly the single keyword `testing`. -/
theorem getCommonKeywords_top10_sorted :
    ∀ doc : Html,
      (keywordList doc).length ≤ 10 ∧
      (keywordPairs doc).Pairwise countGE ∧
      keywordList docTesting = ["testing"] ∧
      (getCommonKeywords docTesting).keywords = "testing" := by
  intro doc
  refine ⟨?_, ?_, rfl, rfl⟩
  · simp only [keywordList, keywordPairs, List.length_map, List.length_take]
    omega
  · exact List.Pairwise.sublist (List.take_sublist 10 _)
      (sortCountDesc_pairwise (keywordCounts doc))

/-! ## Lemmas about images and links -/

theorem imagesOf_append (l1 l2 : List Elem) :
    imagesOf (l1 ++ l2) = imagesOf l1 ++ imagesOf l2 := by
  simp [imagesOf, selectTag, List.filter_append]

theorem imagesOf_cons_img (x : Elem) (hx : x.tag = "img") (l : List Elem) :
    imagesOf (x :: l) = imgRec x :: imagesOf l := by
  simp [imagesOf, selectTag, List.filter_cons, hx]

/-- C7: a document with no `img` element yields `missingAltPercentage = 0`;
the JS `Math.round(NaN) || 0` collapses the zero-image division to 0. -/
theorem analyzeImages_zero_images_pct :
    ∀ doc : Html, selectTag doc "img" = [] →
      (analyzeImages doc).missingAltPercentage = 0 := by
  intro doc h
  simp [analyzeImages, missingAltOf, imagesOf, h, jsRoundPct]

theorem analyzeImages_zero_images_pct_witness :
    (analyzeImages []).missingAltPercentage = 0 :=
  analyzeImages_zero_images_pct [] rfl

/-- C10: an `img` whose `alt` attribute is present but empty is treated
exactly like an `img` with no `alt` attribute: the whole image summary is
unchanged by swapping one for the other, the element is counted in
`missingAlt`, and its record belongs to the pool the `examples` list is
drawn from. -/
theorem analyzeImages_empty_alt_missing :
    ∀ (pre post : List Elem) (e e' : Elem),
      e.tag = "img" → e'.tag = "img" →
      getAttr e "src" = getAttr e' "src" →
      getAttr e "alt" = some "" → getAttr e' "alt" = none →
      analyzeImages (pre ++ e :: post) = analyzeImages (pre ++ e' :: post) ∧
      (analyzeImages (pre ++ e :: post)).missingAlt =
        (analyzeImages (pre ++ post)).missingAlt + 1 ∧
      imgRec e ∈ missingAltOf (pre ++ e :: post) := by
  intro pre post e e' ht ht' hsrc halt halt'
  have hrec : imgRec e = imgRec e' := by
    simp [imgRec, jsAttrOr, hsrc, halt, halt']
  have healt : (imgRec e).alt = "" := by
    simp [imgRec, jsAttrOr, halt]
  have h1 : imagesOf (pre ++ e :: post) = imagesOf pre ++ imgRec e :: imagesOf post := by
    rw [imagesOf_append, imagesOf_cons_img e ht]
  have h1' : imagesOf (pre ++ e' :: post) = imagesOf pre ++ imgRec e :: imagesOf post := by
    rw [imagesOf_append, imagesOf_cons_img e' ht', hrec]
  have h2 : imagesOf (pre ++ post) = imagesOf pre ++ imagesOf post :=
    imagesOf_append pre post
  refine ⟨?_, ?_, ?_⟩
  · simp [analyzeImages, missingAltOf, h1, h1']
  · simp [analyzeImages, missingAltOf, h1, h2, List.filter_append,
      List.filter_cons, healt]
    omega
  · rw [missingAltOf, h1]
    refine List.mem_filter.2 ⟨?_, ?_⟩
    · simp
    · simp [healt]

def imgEmptyAlt : Elem :=
  { tag := "img", attrs := [("src", "a.png"), ("alt", "")], text := "" }

def imgNoAlt : Elem :=
  { tag := "img", attrs := [("src", "a.png")], text := "" }

theorem analyzeImages_empty_alt_missing_witness :
    analyzeImages [imgEmptyAlt] = analyzeImages [imgNoAlt] ∧
    (analyzeImages [imgEmptyAlt]).missingAlt =
      (analyzeImages []).missingAlt + 1 :=
  have h := analyzeImages_empty_alt_missing [] [] imgEmptyAlt imgNoAlt
    rfl rfl rfl rfl rfl
  ⟨h.1, h.2.1⟩

/-- C2: on a document with zero anchors the link summary's ratio field is
the string `NaN% internal` — the JS `0 / 0` division is unguarded, so `NaN`
does leak into the report, contrary to the specified guard. -/
theorem analyzeLinks_zero_anchor_ratio_nan :
    (analyzeLinks ([] : Html) urlEx).total = 0 ∧
    (analyzeLinks ([] : Html) urlEx).ratio = "NaN% internal" :=
  ⟨rfl, rfl⟩

/-! ## Claim C1: fatal fetch error handling of analyzeSEO -/

/-- C1: the primary page fetch throwing is the one and only condition under
which `analyzeSEO` yields an error indicator, and then the result is exactly
the error object `Failed to analyze the page` with no other field; whenever
the fetch succeeds the result is a full report with no error. -/
theorem analyzeSEO_fatal_fetch_only :
    ∀ (f : Option Html) (r : Option String) (u : Url),
      (f = none → analyzeSEO f r u = .failure "Failed to analyze the page") ∧
      (∀ doc, f = some doc → ∃ rep, analyzeSEO f r u = .report rep) ∧
      (∀ msg, analyzeSEO f r u = .failure msg →
        f = none ∧ msg = "Failed to analyze the page") := by
  intro f r u
  refine ⟨?_, ?_, ?_⟩
  · rintro rfl; rfl
  · rintro doc rfl; exact ⟨_, rfl⟩
  · intro msg h
    cases f with
    | none =>
        refine ⟨rfl, ?_⟩
        simp only [analyzeSEO, AnalysisResult.failure.injEq] at h
        exact h.symm
    | some doc => simp [analyzeSEO] at h

theorem analyzeSEO_fatal_fetch_only_witness :
    analyzeSEO none none urlEx = .failure "Failed to analyze the page" ∧
    (∃ rep, analyzeSEO (some docTesting) none urlEx = .report rep) ∧
    ((none : Option Html) = none ∧
      "Failed to analyze the page" = "Failed to analyze the page") :=
  ⟨(analyzeSEO_fatal_fetch_only none none urlEx).1 rfl,
   (analyzeSEO_fatal_fetch_only (some docTesting) none urlEx).2.1 docTesting rfl,
   (analyzeSEO_fatal_fetch_only none none urlEx).2.2
     "Failed to analyze the page" rfl⟩

/-! ## Claim C9: WWW canonicalization -/

def urlWwwPath : Url :=
  { scheme := "https", hostname := "example.com", path := "/www.page" }

/-- C9 counterexample: for the URL `https://example.com/www.page` the
hostname does not contain `www.` yet `hasWWW` is true — the source tests the
whole URL string, not the hostname. -/
theorem checkWWW_hostname_counterexample :
    (checkWWWCanonicalization (renderUrl urlWwwPath)).hasWWW = true ∧
    containsSub urlWwwPath.hostname "www." = false := by
  exact ⟨by decide, by decide⟩

/-- C9 (amended): `hasWWW` is true exactly when the full URL string contains
the substring `www.`; containment in the hostname is sufficient (the
hostname is a substring of the rendered URL) but not necessary. -/
theorem checkWWW_url_substring :
    ∀ u : Url,
      (checkWWWCanonicalization (renderUrl u)).hasWWW =
        containsSub (renderUrl u) "www." ∧
      (containsSub u.hostname "www." = true →
        (checkWWWCanonicalization (renderUrl u)).hasWWW = true) := by
  intro u
  refine ⟨rfl, ?_⟩
  intro h
  have h' : "www.".data <:+: u.hostname.data := of_decide_eq_true h
  show containsSub (renderUrl u) "www." = true
  apply decide_eq_true
  refine h'.trans ?_
  refine ⟨(u.scheme ++ "://").data, u.path.data, ?_⟩
  simp [renderUrl, String.data_append, List.append_assoc]

def urlWww : Url :=
  { scheme := "https", hostname := "www.example.com", path := "/" }

theorem checkWWW_url_substring_witness :
    (checkWWWCanonicalization (renderUrl urlWww)).hasWWW = true :=
  (checkWWW_url_substring urlWww).2 (by decide)

/-! ## Lemmas about the SSL polling loop -/

theorem pollLoopAux_le : ∀ l : List (Option SslData),
    (pollLoopAux l).2 ≤ l.length := by
  intro l
  induction l with
  | nil => simp [pollLoopAux]
  | cons r rest ih =>
      cases r with
      | none => simp [pollLoopAux]
      | some data =>
          simp only [pollLoopAux]
          split
          · simp
          · split
            · simp
            · simp only [List.length_cons]
              omega

theorem pollLoopAux_ready : ∀ (l : List (Option SslData)) (d : SslData),
    (pollLoopAux l).1 = some d → d.status = "READY" := by
  intro l
  induction l with
  | nil => intro d h; simp [pollLoopAux] at h
  | cons r rest ih =>
      intro d h
      cases r with
      | none => simp [pollLoopAux] at h
      | some data =>
          simp only [pollLoopAux] at h
          split at h
          · rename_i hst
            rw [← Option.some.inj h]
            exact hst
          · split at h
            · simp at h
            · exact ih d h

theorem pollLoopAux_exhaust : ∀ l : List (Option SslData),
    (∀ r ∈ l, ∃ d, r = some d ∧ d.status ≠ "READY" ∧ d.status ≠ "ERROR") →
    pollLoopAux l = (none, l.length) := by
  intro l
  induction l with
  | nil => intro _; rfl
  | cons r rest ih =>
      intro h
      rcases h r (List.mem_cons_self r rest) with ⟨d, rfl, h1, h2⟩
      have hrest := ih fun x hx => h x (List.mem_cons_of_mem _ hx)
      simp only [pollLoopAux, if_neg h1, if_neg h2, hrest, List.length_cons]

/-- C4: the polling loop of `checkSSL` performs at most `maxAttempts = 30`
iterations, each preceded by one `interval`-long wait, so the total waiting
time is at most `maxAttempts * interval`; a resolved value only arises from
a READY status, and when every poll returns a non-terminal status the
attempt budget is exhausted and the result is `none` (null) after exactly
`maxAttempts` iterations. -/
theorem checkSSL_poll_bounded :
    ∀ (startOk : Bool) (polls : Nat → Option SslData),
      (checkSSL startOk polls).2 ≤ maxAttempts ∧
      (checkSSL startOk polls).2 * interval ≤ maxAttempts * interval ∧
      (∀ d, (checkSSL startOk polls).1 = some d → d.status = "READY") ∧
      ((∀ i, i < maxAttempts → ∃ d, polls i = some d ∧
          d.status ≠ "READY" ∧ d.status ≠ "ERROR") →
        startOk = true → checkSSL startOk polls = (none, maxAttempts)) := by
  intro startOk polls
  have hlen : ((List.range maxAttempts).map polls).length = maxAttempts := by
    simp
  have h1 : (checkSSL startOk polls).2 ≤ maxAttempts := by
    cases startOk with
    | false => simp [checkSSL]
    | true =>
        simp only [checkSSL, if_pos]
        exact le_trans (pollLoopAux_le _) (le_of_eq hlen)
  refine ⟨h1, Nat.mul_le_mul h1 (Nat.le_refl interval), ?_, ?_⟩
  · intro d hd
    cases startOk with
    | false => simp [checkSSL] at hd
    | true =>
        simp only [checkSSL, if_pos] at hd
        exact pollLoopAux_ready _ d hd
  · intro hall hok
    subst hok
    simp only [checkSSL, if_pos]
    rw [pollLoopAux_exhaust, hlen]
    intro r hr
    rcases List.mem_map.1 hr with ⟨i, hi, rfl⟩
    exact hall i (List.mem_range.1 hi)

def pollsInProgress : Nat → Option SslData :=
  fun _ => some { status := "IN_PROGRESS", endpoints := [] }

def pollsReady : Nat → Option SslData :=
  fun _ => some { status := "READY", endpoints := [] }

theorem checkSSL_poll_bounded_witness :
    checkSSL true pollsInProgress = (none, maxAttempts) ∧
    SslData.status { status := "READY", endpoints := [] } = "READY" := by
  constructor
  · refine (checkSSL_poll_bounded true pollsInProgress).2.2.2 ?_ rfl
    intro i hi
    exact ⟨{ status := "IN_PROGRESS", endpoints := [] }, rfl, by decide, by decide⟩
  · exact (checkSSL_poll_bounded true pollsReady).2.2.1
      { status := "READY", endpoints := [] } rfl

/-! ## Claims C5 and C6: checkSecurityHeaders -/

/-- C5: when the single header-check request throws, all five header fields
come back `null`, and the vulnerabilities result is exactly what it would
have been for any outcome of the header request — the admin-path,
directory-indexing and sensitive-file scans run regardless.  (The embedding
is a total function: every fetch failure is absorbed at its catch site, so
no error reaches the caller.) -/
theorem checkSecurityHeaders_header_failure_isolated :
    ∀ (m : Option (String → Option String)) (a : String → Option Nat)
      (d : Option String) (f : String → Option Nat),
      (checkSecurityHeaders none a d f).1 =
        { strictTransportSecurity := none, xFrameOptions := none
          xXssProtection := none, contentSecurityPolicy := none
          xContentTypeOptions := none } ∧
      (checkSecurityHeaders none a d f).2 = (checkSecurityHeaders m a d f).2 := by
  intro m a d f
  exact ⟨rfl, rfl⟩

theorem filterMap_map_sublist {α β : Type _} (f : α → Option β) (g : β → α)
    (h : ∀ a b, f a = some b → g b = a) :
    ∀ l : List α, ((l.filterMap f).map g).Sublist l := by
  intro l
  induction l with
  | nil => simp
  | cons a l ih =>
      cases hfa : f a with
      | none =>
          rw [List.filterMap_cons_none hfa]
          exact List.Sublist.cons a ih
      | some b =>
          rw [List.filterMap_cons_some hfa, List.map_cons, h a b hfa]
          exact List.Sublist.cons₂ a ih

theorem probeAdmin_some (a : String → Option Nat) (p : String)
    (e : AdminUrlVuln) (hpe : probeAdmin a p = some e) :
    ∃ st, a p = some st ∧ st ≠ 404 ∧ st ≠ 0 ∧
      e = { url := p, status := st, accessible := decide (st < 400) } := by
  cases hap : a p with
  | none => simp [probeAdmin, hap] at hpe
  | some st =>
      simp only [probeAdmin, hap] at hpe
      split at hpe
      · rename_i hc
        exact ⟨st, rfl, hc.1, hc.2, (Option.some.inj hpe).symm⟩
      · simp at hpe

theorem probeFile_some (f : String → Option Nat) (q : String)
    (e : SensitiveFileVuln) (hpe : probeFile f q = some e) :
    f q = some 200 ∧ e = { file := q, accessible := true, status := 200 } := by
  cases hfq : f q with
  | none => simp [probeFile, hfq] at hpe
  | some st =>
      simp only [probeFile, hfq] at hpe
      split at hpe
      · rename_i hc
        subst hc
        exact ⟨rfl, (Option.some.inj hpe).symm⟩
      · simp at hpe

/-- C6: every recorded admin-URL probe has a status that is neither 404 nor
0 and its `accessible` flag means status < 400; every recorded
sensitive-file probe has status exactly 200; and both result lists preserve
the fixed probe-list order (their paths form a sublist of the catalogue). -/
theorem checkSecurityHeaders_probe_invariants :
    ∀ (m : Option (String → Option String)) (a : String → Option Nat)
      (d : Option String) (f : String → Option Nat),
      (∀ e ∈ (checkSecurityHeaders m a d f).2.adminUrls,
        e.status ≠ 404 ∧ e.status ≠ 0 ∧ e.accessible = decide (e.status < 400)) ∧
      (∀ e ∈ (checkSecurityHeaders m a d f).2.sensitiveFiles,
        e.status = 200 ∧ e.accessible = true) ∧
      ((checkSecurityHeaders m a d f).2.adminUrls.map
        AdminUrlVuln.url).Sublist adminPaths ∧
      ((checkSecurityHeaders m a d f).2.sensitiveFiles.map
        SensitiveFileVuln.file).Sublist sensitiveFilePaths := by
  intro m a d f
  have hadmin : (checkSecurityHeaders m a d f).2.adminUrls =
      adminPaths.filterMap (probeAdmin a) := rfl
  have hfiles : (checkSecurityHeaders m a d f).2.sensitiveFiles =
      sensitiveFilePaths.filterMap (probeFile f) := rfl
  refine ⟨?_, ?_, ?_, ?_⟩
  · intro e he
    rw [hadmin] at he
    rcases List.mem_filterMap.1 he with ⟨p, _, hpe⟩
    rcases probeAdmin_some a p e hpe with ⟨st, _, h404, h0, rfl⟩
    exact ⟨h404, h0, rfl⟩
  · intro e he
    rw [hfiles] at he
    rcases List.mem_filterMap.1 he with ⟨q, _, hpe⟩
    rcases probeFile_some f q e hpe with ⟨_, rfl⟩
    exact ⟨rfl, rfl⟩
  · rw [hadmin]
    refine filterMap_map_sublist (probeAdmin a) AdminUrlVuln.url ?_ adminPaths
    intro p e hpe
    rcases probeAdmin_some a p e hpe with ⟨st, _, _, _, rfl⟩
    rfl
  · rw [hfiles]
    refine filterMap_map_sublist (probeFile f) SensitiveFileVuln.file ?_
      sensitiveFilePaths
    intro q e hpe
    rcases probeFile_some f q e hpe with ⟨_, rfl⟩
    rfl

def adminEnvW : String → Option Nat :=
  fun p => if p == "/admin" then some 200 else none

def fileEnvW : String → Option Nat :=
  fun q => if q == "/.env" then some 200 else none

theorem checkSecurityHeaders_probe_invariants_witness :
    ({ url := "/admin", status := 200, accessible := true } : AdminUrlVuln).status ≠ 404 ∧
    ({ file := "/.env", accessible := true, status := 200 } : SensitiveFileVuln).status = 200 := by
  have h := checkSecurityHeaders_probe_invariants none adminEnvW none fileEnvW
  exact ⟨(h.1 _ (by decide)).1, (h.2.1 _ (by decide)).1⟩
